import Mathlib

/-!
Shallow embedding of the podverification repository (src/validations.py,
src/data_models.py, src/app.py) for checking its natural-language
specification.

Modelling conventions:
* Python values flowing through JSON / pydantic are embedded as `JVal`
  (None, bool, number, float NaN, string, list, dict).
* Python floats are modelled by exact rationals `ℚ`; `int(x)` is
  truncation toward zero (`pyInt`).
* `difflib.SequenceMatcher(None, a, b).ratio()` is embedded faithfully:
  the run-table longest-match search with first-maximal tie-breaking, the
  two non-junk extension loops, the autojunk "popular element" filter for
  `len(b) >= 200`, and the recursive matching-block decomposition (with a
  fuel parameter large enough for the top-level call).
* Code that can raise is embedded in `Except String`.
-/

namespace PodVerif

/-! ### difflib.SequenceMatcher model -/

/-- Characters of `a` at `i` and of `b` at `j` are equal (both in range). -/
def charEqAt (a b : List Char) (i j : Nat) : Bool :=
  match a.get? i, b.get? j with
  | some ca, some cb => ca == cb
  | _, _ => false

/-- Character of `b` at `j` equals character of `a` at `i` and is not an
autojunk-popular element of `b` (popular elements are deleted from `b2j`,
so the run table never matches them). -/
def charMatchAt (a b pop : List Char) (i j : Nat) : Bool :=
  match a.get? i, b.get? j with
  | some ca, some cb => ca == cb && !pop.contains cb
  | _, _ => false

/-- Run length ending at `(i, j)` in the `j2len` table of
`SequenceMatcher.find_longest_match`, for the window starting at
`(alo, blo)`: the number of consecutive matchable equal characters ending
at `(i, j)` without crossing the window start. -/
def matchRun (a b pop : List Char) (alo blo : Nat) : Nat → Nat → Nat
  | 0, _j => if charMatchAt a b pop 0 _j then 1 else 0
  | i+1, 0 => if charMatchAt a b pop (i+1) 0 then 1 else 0
  | i+1, j+1 =>
    if charMatchAt a b pop (i+1) (j+1) then
      1 + (if alo ≤ i && blo ≤ j then matchRun a b pop alo blo i j else 0)
    else 0

/-- One step of the best-match fold: replace the current best
`(besti, bestj, bestsize)` when the run ending at `(i, j)` is strictly
longer (so the scan keeps the first maximal match in `i`-then-`j` order,
as `find_longest_match` does). -/
def flmStep (a b pop : List Char) (alo blo : Nat)
    (best : Nat × Nat × Nat) (ij : Nat × Nat) : Nat × Nat × Nat :=
  let k := matchRun a b pop alo blo ij.1 ij.2
  if best.2.2 < k then (ij.1 + 1 - k, ij.2 + 1 - k, k) else best

/-- All `(i, j)` pairs of the window, in the scan order of
`find_longest_match`: `i` ascending, then `j` ascending. -/
def windowPairs (alo ahi blo bhi : Nat) : List (Nat × Nat) :=
  (List.range' alo (ahi - alo)).product (List.range' blo (bhi - blo))

/-- The run-table phase of `find_longest_match` on a window. -/
def flmCore (a b pop : List Char) (alo ahi blo bhi : Nat) : Nat × Nat × Nat :=
  (windowPairs alo ahi blo bhi).foldl (flmStep a b pop alo blo) (alo, blo, 0)

/-- The first extension loop of `find_longest_match` (with `isjunk = None`
the junk set is empty, so the guard is plain character equality): extend
the best match to the left while in the window. -/
def extendLeft (a b : List Char) (alo blo : Nat) : Nat → Nat → Nat → Nat × Nat × Nat
  | 0, j, k => (0, j, k)
  | i+1, 0, k => (i+1, 0, k)
  | i+1, j+1, k =>
    if alo ≤ i && blo ≤ j && charEqAt a b i j then
      extendLeft a b alo blo i j (k+1)
    else (i+1, j+1, k)

/-- The second extension loop of `find_longest_match`: extend the best
match to the right while in the window. `fuel` bounds the iteration count
(`ahi` always suffices). -/
def extendRight (a b : List Char) (ahi bhi i j : Nat) : Nat → Nat → Nat
  | 0, k => k
  | fuel+1, k =>
    if i + k < ahi && j + k < bhi && charEqAt a b (i + k) (j + k) then
      extendRight a b ahi bhi i j fuel (k+1)
    else k

/-- `SequenceMatcher.find_longest_match` on a window: run-table scan, then
the two extension loops. Returns `(besti, bestj, bestsize)`. -/
def findLongestMatch (a b pop : List Char) (alo ahi blo bhi : Nat) : Nat × Nat × Nat :=
  let best := flmCore a b pop alo ahi blo bhi
  let l := extendLeft a b alo blo best.1 best.2.1 best.2.2
  (l.1, l.2.1, extendRight a b ahi bhi l.1 l.2.1 ahi l.2.2)

/-- Total size of the matching blocks of a window
(`get_matching_blocks` recursion; merging adjacent blocks does not change
the total). `fuel` dominates the recursion depth; the window perimeter
`(ahi - alo) + (bhi - blo)` always suffices. -/
def matchingSum (a b pop : List Char) : Nat → Nat → Nat → Nat → Nat → Nat
  | 0, _, _, _, _ => 0
  | fuel+1, alo, ahi, blo, bhi =>
    let r := findLongestMatch a b pop alo ahi blo bhi
    if r.2.2 = 0 then 0
    else
      matchingSum a b pop fuel alo r.1 blo r.2.1 + r.2.2 +
        matchingSum a b pop fuel (r.1 + r.2.2) ahi (r.2.1 + r.2.2) bhi

/-- Autojunk popular elements of `b`: when `len(b) >= 200`, the elements
occurring more than `len(b) // 100 + 1` times (deleted from `b2j`). -/
def popularOf (b : List Char) : List Char :=
  if 200 ≤ b.length then b.filter (fun c => b.length / 100 + 1 < b.count c) else []

/-- Total matched characters of `SequenceMatcher(None, a, b)`
(the `matches` of `ratio()`). -/
def seqMatches (a b : List Char) : Nat :=
  matchingSum a b (popularOf b) (a.length + b.length) 0 a.length 0 b.length

/-- Integer similarity score `int(ratio * 100)` of
`difflib.SequenceMatcher(None, x, y).ratio()`, in exact rational
arithmetic: `ratio = 2 * matches / (len(x) + len(y))`, and `1.0` when both
strings are empty (`_calculate_ratio`). -/
def simScore (x y : String) : Nat :=
  let t := x.length + y.length
  if t = 0 then 100 else 200 * seqMatches x.data y.data / t

/-! ### Python value model -/

/-- Embedded Python/JSON values as they flow through `json.loads`,
pydantic models and pandas cells: `None`, booleans, numbers (exact
rationals for Python ints/floats), the float `nan`, strings, lists and
dicts. -/
inductive JVal where
  | jnull
  | jbool (b : Bool)
  | jnum (q : ℚ)
  | jnan
  | jstr (s : String)
  | jlist (xs : List JVal)
  | jdict (es : List (String × JVal))

/-- Python `x is None`. -/
def isNone : JVal → Bool
  | .jnull => true
  | _ => false

/-- String form of a number for Python `str`. Python prints integral
values of `int` type without a decimal point; the textual form of
non-integral floats is approximated (no result below depends on it). -/
def pyNumStr (q : ℚ) : String :=
  if q.den = 1 then toString q.num else toString q

/-- Python `str(x)`. The forms of lists and dicts are approximated (no
result below depends on them); scalars are exact, and `str(float("nan"))`
is `"nan"`. -/
def pyStr : JVal → String
  | .jnull => "None"
  | .jbool true => "True"
  | .jbool false => "False"
  | .jnum q => pyNumStr q
  | .jnan => "nan"
  | .jstr s => s
  | .jlist _ => "[...]"
  | .jdict _ => "\x7b...\x7d"

/-- The ASCII whitespace characters removed by Python `str.strip()`
(space, tab, newline, carriage return, vertical tab, form feed; the
Unicode space classes Python also strips are omitted, and no result
below depends on them). -/
def pyIsSpace (c : Char) : Bool :=
  c == ' ' || c == '\t' || c == '\n' || c == '\r' || c == '\x0b' || c == '\x0c'

/-- Python `str.lower()` on one character (ASCII range; the Unicode case
mappings Python also applies are omitted, and no result below depends on
them). -/
def pyCharLower (c : Char) : Char :=
  if 'A' ≤ c && c ≤ 'Z' then Char.ofNat (c.toNat + 32) else c

/-- Python `str.strip()`: drop whitespace from both ends. -/
def pyStrip (l : List Char) : List Char :=
  ((l.dropWhile pyIsSpace).reverse.dropWhile pyIsSpace).reverse

/-- Python `str(x).strip().lower()` as applied by
`validate_structured_info` before scoring. -/
def pyNormalize (s : String) : String :=
  String.mk ((pyStrip s.data).map pyCharLower)

/-! ### src/validations.py -/

/-- Status strings assigned by `validate_structured_info`:
`"match"`, `"hallucination"`, `"null"`. -/
inductive Status where
  | matched
  | hallucination
  | nullv
deriving DecidableEq, BEq

/-- One entry of the `field_results` dict built by
`validate_structured_info`. -/
structure FieldResult where
  status : Status
  score : Nat
  extracted_value : JVal
  reference_value : JVal

/-- The extraction step `extracted.get("text") if isinstance(extracted,
dict) and "text" in extracted else extracted`. -/
def extractedValueOf (v : JVal) : JVal :=
  match v with
  | .jdict es =>
    match es.lookup "text" with
    | some t => t
    | none => v
  | _ => v

/-- Scoring of one field by `validate_structured_info`: `null` with score
0 when either resolved value `is None`; otherwise the similarity score of
the normalized string forms against the threshold. -/
def validateField (extracted ref : JVal) (threshold : Nat) : FieldResult :=
  if isNone (extractedValueOf extracted) || isNone ref then
    ⟨.nullv, 0, extractedValueOf extracted, ref⟩
  else
    ⟨if threshold ≤ simScore (pyNormalize (pyStr (extractedValueOf extracted)))
        (pyNormalize (pyStr ref)) then .matched else .hallucination,
     simScore (pyNormalize (pyStr (extractedValueOf extracted))) (pyNormalize (pyStr ref)),
     extractedValueOf extracted, ref⟩

/-- `StructuredImageProperty` of src/data_models.py: nine optional
attributes, each defaulting to `None`. -/
structure StructuredImageProperty where
  text_quality_score : JVal := .jnull
  courier_partner : JVal := .jnull
  awb_number : JVal := .jnull
  recipient_name : JVal := .jnull
  recipient_address : JVal := .jnull
  recipient_signature : JVal := .jnull
  recipient_stamp : JVal := .jnull
  delivery_date : JVal := .jnull
  handwritten_notes : JVal := .jnull

/-- The `fields` list iterated by `validate_structured_info`, in source
order. -/
def validationFields : List String :=
  ["text_quality_score", "courier_partner", "awb_number", "recipient_name",
   "recipient_address", "recipient_signature", "recipient_stamp",
   "delivery_date", "handwritten_notes"]

/-- `getattr(structured_info, field, None)`: every one of the nine names
is an attribute of the pydantic model, so the default only covers unknown
names. -/
def getAttrOr (si : StructuredImageProperty) (f : String) : JVal :=
  if f = "text_quality_score" then si.text_quality_score
  else if f = "courier_partner" then si.courier_partner
  else if f = "awb_number" then si.awb_number
  else if f = "recipient_name" then si.recipient_name
  else if f = "recipient_address" then si.recipient_address
  else if f = "recipient_signature" then si.recipient_signature
  else if f = "recipient_stamp" then si.recipient_stamp
  else if f = "delivery_date" then si.delivery_date
  else if f = "handwritten_notes" then si.handwritten_notes
  else .jnull

/-- `reference_info`, an optional Python dict (`Optional[Dict[str, Any]]`). -/
def RefInfo := List (String × JVal)

/-- Python truthiness of the optional dict: `None` and the empty dict are
falsy. -/
def refTruthy (ri : Option RefInfo) : Bool :=
  match ri with
  | some l => !l.isEmpty
  | none => false

/-- `reference_info.get(field) if reference_info else None`; a `.get`
miss yields `None`. -/
def refGet (ri : Option RefInfo) (f : String) : JVal :=
  if refTruthy ri then
    match (ri.getD []).lookup f with
    | some v => v
    | none => .jnull
  else .jnull

/-- `validate_structured_info(structured_info, reference_info, threshold)`:
the `field_results` dict, as the ordered association list over the nine
known fields. -/
def validate_structured_info (si : StructuredImageProperty) (ri : Option RefInfo)
    (threshold : Nat) : List (String × FieldResult) :=
  validationFields.map fun f => (f, validateField (getAttrOr si f) (refGet ri f) threshold)

/-! ### src/app.py, overall-statistics mode -/

/-- `ImageMaster` of src/data_models.py, restricted to the parts the
statistics loop reads. -/
structure ImageMaster where
  structured_info : Option StructuredImageProperty := none
  reference_info : Option RefInfo := none

/-- One row's JSON cell as seen by the overall loop: a pandas `NaN` cell
(`pd.isna` → `continue`), a cell whose parsing or validation raises (the
`except` branch logs and continues), or a parsed `ImageMaster`. -/
inductive CellVal where
  | nanCell
  | badJson
  | okJson (im : ImageMaster)

/-- The bucket a row falls into for a given column, if any: rows whose
JSON is `NaN`, fails to parse, lacks `structured_info`, or has a falsy
`reference_info` increment no counter at all; otherwise the row's status
for the column (a name missing from `field_results` counts as null via
the `else: total_null += 1` branch). -/
def rowBucket (threshold : Nat) (c : String) (cell : CellVal) : Option Status :=
  match cell with
  | .nanCell => none
  | .badJson => none
  | .okJson im =>
    match im.structured_info with
    | none => none
    | some si =>
      if refTruthy im.reference_info then
        match (validate_structured_info si im.reference_info threshold).lookup c with
        | some r => some r.status
        | none => some .nullv
      else none

/-- Number of rows of the dataset falling into a given bucket for a
column. -/
def bucketCount (df : List CellVal) (threshold : Nat) (c : String) (s : Status) : Nat :=
  df.countP fun cell => decide (rowBucket threshold c cell = some s)

/-- A percentage as computed in the overall loop:
`(count / total_count) * 100 if total_count else 0`, in exact rationals. -/
def pct (n t : Nat) : ℚ :=
  if t = 0 then 0 else ((n : ℚ) / (t : ℚ)) * 100

/-- One row of the `overall_data` table emitted for a column. -/
structure ColStats where
  field : String
  totalCount : Nat
  totalMatch : Nat
  totalNull : Nat
  hallucinationCount : Nat
  matchPercentage : ℚ
  nullPercentage : ℚ
  hallucinationPercentage : ℚ
deriving DecidableEq

/-- The statistics the overall loop computes for one column:
`total_count` is `len(df)` regardless of how many rows were skipped. -/
def overallStats (df : List CellVal) (threshold : Nat) (c : String) : ColStats :=
  let total := df.length
  let m := bucketCount df threshold c .matched
  let n := bucketCount df threshold c .nullv
  let h := bucketCount df threshold c .hallucination
  ⟨c, total, m, n, h, pct m total, pct n total, pct h total⟩

/-- The columns iterated by the overall-statistics loop (the literal list
at src/app.py line 192). -/
def overallColumns : List String :=
  ["text_quality_score", "courier_partner", "awb_number", "recipient_name",
   "recipient_address", "recipient_signature", "recipient_stamp", "delivery_date"]

/-- The full `overall_data` table, one `ColStats` per iterated column. -/
def overallTable (df : List CellVal) (threshold : Nat) : List ColStats :=
  overallColumns.map (overallStats df threshold)

/-! ### src/app.py, draw_predictions_on_image -/

/-- Font metrics handle: `font.getbbox(label)` returning
`(left, top, right, bottom)`. -/
structure FontMetrics where
  getbbox : String → Int × Int × Int × Int

/-- Drawing operations issued to `ImageDraw`: the box outline, the filled
label background, and the label text. -/
inductive DrawCmd where
  | rectOutline (x1 y1 x2 y2 : Int) (color : String) (width : Nat)
  | rectFill (x1 y1 x2 y2 : Int) (color : String)
  | textCmd (x y : Int) (label : String) (color : String)
deriving DecidableEq, BEq

/-- The fixed color palette. -/
def colors : List String :=
  ["red", "green", "blue", "yellow", "purple", "orange", "cyan", "magenta"]

/-- Python `int(x)` on a float: truncation toward zero. -/
def pyInt (q : ℚ) : Int :=
  if q < 0 then Int.ceil q else Int.floor q

/-- One scaled coordinate `int(component / 1000 * dim)`. Numbers (and
bools, which Python treats as ints) divide fine; `float("nan")` raises at
`int()`; anything else raises at the division. -/
def toAbsCoord (v : JVal) (dim : Nat) : Except String Int :=
  match v with
  | .jnum q => .ok (pyInt (q / 1000 * dim))
  | .jbool b => .ok (pyInt ((if b then (1 : ℚ) else 0) / 1000 * dim))
  | .jnan => .error "ValueError: cannot convert float NaN to integer"
  | _ => .error "TypeError: unsupported operand type for /"

/-- The Gemini bounding-box scaling step, in source evaluation order
(`abs_y1` from `box_2d[1]` and the height, `abs_x1` from `box_2d[0]` and
the width, `abs_y2` from `box_2d[3]`, `abs_x2` from `box_2d[2]`); returns
`(abs_x1, abs_y1, abs_x2, abs_y2)`. -/
def scaleBoxCoords (b0 b1 b2 b3 : JVal) (W H : Nat) : Except String (Int × Int × Int × Int) :=
  match toAbsCoord b1 H with
  | .error e => .error e
  | .ok ay1 =>
    match toAbsCoord b0 W with
    | .error e => .error e
    | .ok ax1 =>
      match toAbsCoord b3 H with
      | .error e => .error e
      | .ok ay2 =>
        match toAbsCoord b2 W with
        | .error e => .error e
        | .ok ax2 => .ok (ax1, ay1, ax2, ay2)

/-- A processed box: absolute pixel coordinates after ordering and
clamping. -/
structure Box4 where
  x1 : Int
  y1 : Int
  x2 : Int
  y2 : Int
deriving DecidableEq, BEq

/-- The ordering swap (`x1 <= x2`, `y1 <= y2`) followed by clamping each
coordinate into `[0, W]` respectively `[0, H]`. -/
def orderClampBox (x1 y1 x2 y2 : Int) (W H : Nat) : Box4 :=
  let ox := if x2 < x1 then (x2, x1) else (x1, x2)
  let oy := if y2 < y1 then (y2, y1) else (y1, y2)
  ⟨max 0 (min ox.1 (W : Int)), max 0 (min oy.1 (H : Int)),
   max 0 (min ox.2 (W : Int)), max 0 (min oy.2 (H : Int))⟩

/-- The degeneracy test `abs_x1 >= abs_x2 or abs_y1 >= abs_y2` applied
after clamping. -/
def boxDegenerate (c : Box4) : Bool :=
  c.x2 ≤ c.x1 || c.y2 ≤ c.y1

/-- The field-or-dict test of the render loop: a field participates only
when its dumped value is a dict containing both a `"text"` and a
`"box_2d"` key; the pair of their values is returned. -/
def rendFieldCase (v : JVal) : Option (JVal × JVal) :=
  match v with
  | .jdict es =>
    match es.lookup "text", es.lookup "box_2d" with
    | some t, some b => some (t, b)
    | _, _ => none
  | _ => none

/-- The box validation `box_2d and isinstance(box_2d, list) and
len(box_2d) == 4`: only a (necessarily truthy) list of exactly four
components passes. -/
def boxValid4 : JVal → Option (JVal × JVal × JVal × JVal)
  | .jlist [a, b, c, d] => some (a, b, c, d)
  | _ => none

/-- The label string
`f"{field_name}: {text[:15]}{'...' if len(text)>15 else ''}"`. Slicing
requires a string; `None` and numbers raise `TypeError` there (a list
`text` would format instead of raising, an approximation no result below
depends on). -/
def pyLabel (fieldName : String) (text : JVal) : Except String String :=
  match text with
  | .jstr s => .ok (fieldName ++ ": " ++ s.take 15 ++ (if 15 < s.length then "..." else ""))
  | _ => .error "TypeError: text is not subscriptable"

/-- The drawing commands issued for one successfully validated box: the
outline (stroke width 3), the filled label background sized by the font
metrics and clamped to non-negative y, and the label text in black. -/
def emitCmds (font : FontMetrics) (colorIdx : Nat) (c : Box4) (label : String) : List DrawCmd :=
  let color := colors.getD (colorIdx % colors.length) ""
  let bb := font.getbbox label
  let tw := bb.2.2.1 - bb.1
  let th := bb.2.2.2 - bb.2.1
  let toff := bb.2.1
  let bgY := max 0 (c.y1 - th - toff - 2)
  [.rectOutline c.x1 c.y1 c.x2 c.y2 color 3,
   .rectFill c.x1 bgY (c.x1 + tw + 4) (bgY + th + 2) color,
   .textCmd (c.x1 + 2) (bgY - toff + 1) label "black"]

/-- What the render loop does with one field. -/
inductive FieldAction where
  | ignore
  | skipLog (msg : String)
  | raise (msg : String)
  | drawn (cmds : List DrawCmd)

/-- Processing of one field of the dumped `structured_info`: fields that
are not dicts with both keys are passed over silently; a box failing the
list-of-4 test is skipped with a log line; non-numeric components raise;
a box degenerate after clamping is skipped with a log line; otherwise the
label is built (raising for unsliceable text) and the commands are drawn.
In CPython the outline is already on the image when a bad text raises;
this model drops that incomplete drawing together with the rest of the
render, which no result below depends on. -/
def processField (font : FontMetrics) (W H : Nat) (colorIdx : Nat)
    (fieldName : String) (v : JVal) : FieldAction :=
  match rendFieldCase v with
  | none => .ignore
  | some (text, box) =>
    match boxValid4 box with
    | none => .skipLog ("Skipping field " ++ fieldName ++ " due to missing or invalid box_2d")
    | some (b0, b1, b2, b3) =>
      match scaleBoxCoords b0 b1 b2 b3 W H with
      | .error e => .raise e
      | .ok (x1, y1, x2, y2) =>
        let c := orderClampBox x1 y1 x2 y2 W H
        if boxDegenerate c then
          .skipLog ("Skipping invalid bbox for " ++ fieldName)
        else
          match pyLabel fieldName text with
          | .error e => .raise e
          | .ok label => .drawn (emitCmds font colorIdx c label)

/-- Accumulated render state: commands drawn so far, warnings logged so
far, and the shared color counter (incremented only on drawn boxes). -/
structure RenderAcc where
  cmds : List DrawCmd
  logs : List String
  colorIndex : Nat

/-- Folding one field into the render state. -/
def drawField (font : FontMetrics) (W H : Nat) (acc : RenderAcc)
    (p : String × JVal) : Except String RenderAcc :=
  match processField font W H acc.colorIndex p.1 p.2 with
  | .ignore => .ok acc
  | .skipLog m => .ok { acc with logs := acc.logs ++ [m] }
  | .raise e => .error e
  | .drawn cs => .ok { acc with cmds := acc.cmds ++ cs, colorIndex := acc.colorIndex + 1 }

/-- The render loop over the field list: fold `drawField`, stopping at
the first exception. -/
def drawFold (font : FontMetrics) (W H : Nat) :
    RenderAcc → List (String × JVal) → Except String RenderAcc
  | acc, [] => .ok acc
  | acc, p :: ps =>
    match drawField font W H acc p with
    | .error e => .error e
    | .ok acc2 => drawFold font W H acc2 ps

/-- The body of `draw_predictions_on_image` over the dumped field list of
a `StructuredImageProperty`, on an image of pixel size `(W, H)`: the
drawing commands, the warning log, and the color counter — or the
exception aborting the render. -/
def draw_predictions_on_image (font : FontMetrics) (W H : Nat)
    (fields : List (String × JVal)) : Except String RenderAcc :=
  drawFold font W H ⟨[], [], 0⟩ fields

/-- `structured_info.model_dump().items()`: the nine fields in
declaration order. -/
def structuredFieldList (si : StructuredImageProperty) : List (String × JVal) :=
  [("text_quality_score", si.text_quality_score),
   ("courier_partner", si.courier_partner),
   ("awb_number", si.awb_number),
   ("recipient_name", si.recipient_name),
   ("recipient_address", si.recipient_address),
   ("recipient_signature", si.recipient_signature),
   ("recipient_stamp", si.recipient_stamp),
   ("delivery_date", si.delivery_date),
   ("handwritten_notes", si.handwritten_notes)]

/-! ### src/app.py, image objects and the render call site

PIL image objects are modelled as indices into a heap of buffers; a
buffer records the drawing commands applied to it. `ImageDraw.Draw`
mutates the buffer it is handed. -/

/-- The heap of image buffers. -/
abbrev Heap := List (List DrawCmd)

/-- `image.copy()`: allocate a fresh buffer holding the same content and
return its index. -/
def imageCopy (h : Heap) (src : Nat) : Heap × Nat :=
  (h ++ [h.getD src []], h.length)

/-- `draw_predictions_on_image(image, structured_info)` at the heap
level: with no `structured_info` the image is returned untouched;
otherwise the commands are drawn onto the buffer that was passed in, and
that same buffer index is returned (`return image`). -/
def drawPredHeap (font : FontMetrics) (W H : Nat) (h : Heap) (img : Nat)
    (si : Option StructuredImageProperty) : Except String (Heap × Nat) :=
  match si with
  | none => .ok (h, img)
  | some s =>
    match draw_predictions_on_image font W H (structuredFieldList s) with
    | .error e => .error e
    | .ok acc => .ok (h.set img (h.getD img [] ++ acc.cmds), img)

/-- The call site at src/app.py line 332:
`annotated_image = draw_predictions_on_image(image.copy(), structured_info)`.
Returns the final heap and the index of the annotated image. -/
def callSiteRender (font : FontMetrics) (W H : Nat) (h : Heap) (orig : Nat)
    (si : Option StructuredImageProperty) : Except String (Heap × Nat) :=
  let c := imageCopy h orig
  drawPredHeap font W H c.1 c.2 si

/-- A fixed font for concrete instances: every label measures as
`(0, 0, 10, 10)`. -/
def font0 : FontMetrics := ⟨fun _ => (0, 0, 10, 10)⟩

/-- A one-field structured record with a well-formed box, for concrete
instances. -/
def fields1 : List (String × JVal) :=
  [("awb_number", .jdict [("text", .jstr "x"),
     ("box_2d", .jlist [.jnum 0, .jnum 0, .jnum 500, .jnum 500])])]

/-- A one-row dataset whose row parses and carries both a structured
record and a non-empty reference dict, for concrete instances. -/
def df1 : List CellVal :=
  [CellVal.okJson ⟨some {}, some [("courier_partner", JVal.jstr "a")]⟩]

/-- A structured record whose only present field carries the well-formed
box of `fields1`, for concrete instances. -/
def si1 : StructuredImageProperty :=
  { awb_number := .jdict [("text", .jstr "x"),
      ("box_2d", .jlist [.jnum 0, .jnum 0, .jnum 500, .jnum 500])] }

/-- The best triple of the longest-match search lies inside the window. -/
def FlmInv (alo ahi blo bhi : Nat) (r : Nat × Nat × Nat) : Prop :=
  alo ≤ r.1 ∧ blo ≤ r.2.1 ∧ r.1 + r.2.2 ≤ ahi ∧ r.2.1 + r.2.2 ≤ bhi

/-- A drawing command is safe for an image of size `(W, H)`: if it is a
rectangle outline, its coordinates are non-negative, strictly ordered,
and within the image. -/
def RectSafe (W H : Nat) (cmd : DrawCmd) : Prop :=
  ∀ a b c d col wd, cmd = DrawCmd.rectOutline a b c d col wd →
    0 ≤ a ∧ a < c ∧ c ≤ (W : Int) ∧ 0 ≤ b ∧ b < d ∧ d ≤ (H : Int)

/-- Whether the render returned without raising. -/
def renderOk (e : Except String RenderAcc) : Bool :=
  match e with
  | .ok _ => true
  | .error _ => false

/-- The similarity ratio as the spec words it, in exact rationals: a
value in `[0, 1]`, `2 * matches / (len(x) + len(y))`, and `1.0` for two
empty strings. Used to compare the integer score of the code against the
spec's "scaled to 0-100 by truncation (floor)". -/
def ratioSpec (x y : String) : ℚ :=
  if x.length + y.length = 0 then 1
  else 2 * (seqMatches x.data y.data : ℚ) / ((x.length : ℚ) + (y.length : ℚ))

/-- A component a box can be scaled by without raising: a number or a
bool. -/
def numericJ : JVal → Bool
  | .jnum _ => true
  | .jbool _ => true
  | _ => false

/-- The text value is a string (so building the label cannot raise). -/
def isJStr : JVal → Bool
  | .jstr _ => true
  | _ => false

/-- A field the render loop is guaranteed not to raise on: either it is
not a dict carrying both keys, or its box fails the list-of-4 test, or
all four components are numeric and the text is a string. -/
def fieldBenign (v : JVal) : Bool :=
  match rendFieldCase v with
  | none => true
  | some (text, box) =>
    match boxValid4 box with
    | none => true
    | some (b0, b1, b2, b3) =>
      numericJ b0 && numericJ b1 && numericJ b2 && numericJ b3 && isJStr text

/-! ## Lemmas -/

/-- Invariant preservation along a left fold, with membership of each
step element available. -/
theorem foldl_inv {α β : Type} {P : β → Prop} {f : β → α → β} :
    ∀ (l : List α) (acc : β), P acc → (∀ acc x, x ∈ l → P acc → P (f acc x)) →
      P (l.foldl f acc) := by
  intro l
  induction l with
  | nil => intro acc h _; exact h
  | cons x xs ih =>
    intro acc h hstep
    exact ih (f acc x) (hstep acc x (List.mem_cons_self x xs) h)
      (fun a y hy ha => hstep a y (List.mem_cons_of_mem x hy) ha)

/-- A run ending at column `i` of a window starting at `alo ≤ i` has at
most `i + 1 - alo` characters. -/
theorem matchRun_le_left (a b pop : List Char) (alo blo : Nat) :
    ∀ i j, alo ≤ i → matchRun a b pop alo blo i j ≤ i + 1 - alo := by
  intro i
  induction i with
  | zero =>
    intro j h
    simp only [matchRun]
    split <;> omega
  | succ i ih =>
    intro j h
    match j with
    | 0 =>
      simp only [matchRun]
      split <;> omega
    | j + 1 =>
      simp only [matchRun]
      split
      · split
        · rename_i hg
        -- the guard gives alo ≤ i, enabling the induction hypothesis
          simp only [Bool.and_eq_true, decide_eq_true_eq] at hg
          have := ih j hg.1
          omega
        · omega
      · omega

/-- A run ending at row `j` of a window starting at `blo ≤ j` has at most
`j + 1 - blo` characters. -/
theorem matchRun_le_right (a b pop : List Char) (alo blo : Nat) :
    ∀ i j, blo ≤ j → matchRun a b pop alo blo i j ≤ j + 1 - blo := by
  intro i
  induction i with
  | zero =>
    intro j h
    simp only [matchRun]
    split <;> omega
  | succ i ih =>
    intro j h
    match j with
    | 0 =>
      simp only [matchRun]
      split <;> omega
    | j + 1 =>
      simp only [matchRun]
      split
      · split
        · rename_i hg
          simp only [Bool.and_eq_true, decide_eq_true_eq] at hg
          have := ih j hg.2
          omega
        · omega
      · omega

/-- Membership in the window pair list gives the window bounds. -/
theorem mem_windowPairs {alo ahi blo bhi i j : Nat}
    (h : (i, j) ∈ windowPairs alo ahi blo bhi) :
    alo ≤ i ∧ i < ahi ∧ blo ≤ j ∧ j < bhi := by
  have := List.mem_product.mp h
  rw [List.mem_range'_1, List.mem_range'_1] at this
  omega

/-- The run-table scan keeps its best triple inside the window. -/
theorem flmCore_inv (a b pop : List Char) (alo ahi blo bhi : Nat)
    (ha : alo ≤ ahi) (hb : blo ≤ bhi) :
    FlmInv alo ahi blo bhi (flmCore a b pop alo ahi blo bhi) := by
  refine foldl_inv (windowPairs alo ahi blo bhi) (alo, blo, 0) ⟨le_refl _, le_refl _, by simpa, by simpa⟩ ?_
  rintro acc ⟨i, j⟩ hmem hacc
  obtain ⟨h1, h2, h3, h4⟩ := mem_windowPairs hmem
  simp only [flmStep]
  split
  · have hkl := matchRun_le_left a b pop alo blo i j h1
    have hkr := matchRun_le_right a b pop alo blo i j h3
    unfold FlmInv
    dsimp only
    exact ⟨by omega, by omega, by omega, by omega⟩
  · exact hacc

/-- The left extension loop keeps the best triple inside the window. -/
theorem extendLeft_inv (a b : List Char) (alo blo ahi bhi : Nat) :
    ∀ i j k, alo ≤ i → blo ≤ j → i + k ≤ ahi → j + k ≤ bhi →
      FlmInv alo ahi blo bhi (extendLeft a b alo blo i j k) := by
  intro i
  induction i with
  | zero =>
    intro j k h1 h2 h3 h4
    exact ⟨h1, h2, h3, h4⟩
  | succ i ih =>
    intro j k h1 h2 h3 h4
    match j with
    | 0 => exact ⟨h1, h2, h3, h4⟩
    | j + 1 =>
      simp only [extendLeft]
      split
      · rename_i hg
        simp only [Bool.and_eq_true, decide_eq_true_eq] at hg
        obtain ⟨⟨hg1, hg2⟩, _⟩ := hg
        exact ih j (k + 1) hg1 hg2 (by omega) (by omega)
      · exact ⟨h1, h2, h3, h4⟩

/-- The right extension loop keeps the match end inside the window. -/
theorem extendRight_le (a b : List Char) (ahi bhi i j : Nat) :
    ∀ fuel k, i + k ≤ ahi → j + k ≤ bhi →
      i + extendRight a b ahi bhi i j fuel k ≤ ahi ∧
        j + extendRight a b ahi bhi i j fuel k ≤ bhi := by
  intro fuel
  induction fuel with
  | zero => intro k h1 h2; exact ⟨h1, h2⟩
  | succ fuel ih =>
    intro k h1 h2
    simp only [extendRight]
    split
    · rename_i hg
      simp only [Bool.and_eq_true, decide_eq_true_eq] at hg
      exact ih (k + 1) (by omega) (by omega)
    · exact ⟨h1, h2⟩

/-- `find_longest_match` returns a match lying inside its window. -/
theorem findLongestMatch_inv (a b pop : List Char) (alo ahi blo bhi : Nat)
    (ha : alo ≤ ahi) (hb : blo ≤ bhi) :
    FlmInv alo ahi blo bhi (findLongestMatch a b pop alo ahi blo bhi) := by
  have hc := flmCore_inv a b pop alo ahi blo bhi ha hb
  obtain ⟨h1, h2, h3, h4⟩ := hc
  have hl := extendLeft_inv a b alo blo ahi bhi _ _ _ h1 h2 h3 h4
  obtain ⟨g1, g2, g3, g4⟩ := hl
  have hr := extendRight_le a b ahi bhi _ _ ahi _ g3 g4
  exact ⟨g1, g2, hr.1, hr.2⟩

/-- The total size of the matching blocks of a window is at most each of
the window's dimensions. -/
theorem matchingSum_le (a b pop : List Char) :
    ∀ fuel alo ahi blo bhi, alo ≤ ahi → blo ≤ bhi →
      matchingSum a b pop fuel alo ahi blo bhi ≤ min (ahi - alo) (bhi - blo) := by
  intro fuel
  induction fuel with
  | zero => intro alo ahi blo bhi _ _; simp [matchingSum]
  | succ fuel ih =>
    intro alo ahi blo bhi ha hb
    simp only [matchingSum]
    split
    · exact Nat.zero_le _
    · have hinv := findLongestMatch_inv a b pop alo ahi blo bhi ha hb
      obtain ⟨h1, h2, h3, h4⟩ := hinv
      have hL := ih alo (findLongestMatch a b pop alo ahi blo bhi).1 blo
        (findLongestMatch a b pop alo ahi blo bhi).2.1 (by omega) (by omega)
      have hR := ih ((findLongestMatch a b pop alo ahi blo bhi).1 +
          (findLongestMatch a b pop alo ahi blo bhi).2.2) ahi
        ((findLongestMatch a b pop alo ahi blo bhi).2.1 +
          (findLongestMatch a b pop alo ahi blo bhi).2.2) bhi (by omega) (by omega)
      have hL1 := le_trans hL (Nat.min_le_left _ _)
      have hL2 := le_trans hL (Nat.min_le_right _ _)
      have hR1 := le_trans hR (Nat.min_le_left _ _)
      have hR2 := le_trans hR (Nat.min_le_right _ _)
      refine Nat.le_min.mpr ⟨?_, ?_⟩ <;> omega

/-- The matched total of `SequenceMatcher(None, a, b)` is at most the
length of either sequence. -/
theorem seqMatches_le (a b : List Char) :
    seqMatches a b ≤ a.length ∧ seqMatches a b ≤ b.length := by
  have h := matchingSum_le a b (popularOf b) (a.length + b.length)
    0 a.length 0 b.length (Nat.zero_le _) (Nat.zero_le _)
  constructor
  · exact le_trans h (by simp)
  · exact le_trans h (by simp)

/-- The integer similarity score is at most 100. -/
theorem simScore_le_100 (x y : String) : simScore x y ≤ 100 := by
  unfold simScore
  dsimp only
  split
  · exact le_refl _
  · rename_i ht
    have hx : seqMatches x.data y.data ≤ x.length := (seqMatches_le x.data y.data).1
    have hy : seqMatches x.data y.data ≤ y.length := (seqMatches_le x.data y.data).2
    have hmul : 200 * seqMatches x.data y.data ≤ 100 * (x.length + y.length) := by omega
    calc 200 * seqMatches x.data y.data / (x.length + y.length)
        ≤ 100 * (x.length + y.length) / (x.length + y.length) :=
          Nat.div_le_div_right hmul
      _ = 100 := Nat.mul_div_cancel 100 (by omega)

/-- Looking a key up in an association list pairing each key of `l` with
`g` of that key yields `g` of the key, for any key of `l`. -/
theorem lookup_map_self {β : Type} (g : String → β) :
    ∀ (l : List String) (f : String), f ∈ l →
      (l.map fun x => (x, g x)).lookup f = some (g f) := by
  intro l
  induction l with
  | nil => intro f h; cases h
  | cons x xs ih =>
    intro f h
    by_cases hfx : f = x
    · subst hfx
      simp [List.lookup]
    · have hb : (f == x) = false := by simpa using hfx
      have hmem : f ∈ xs := by
        rcases List.mem_cons.mp h with h' | h'
        · exact absurd h' hfx
        · exact h'
      simp [List.lookup, hb, ih f hmem]

/-- Only `jnull` satisfies `isNone`. -/
theorem isNone_true_iff (v : JVal) : isNone v = true ↔ v = .jnull := by
  cases v <;> simp [isNone]

/-- The status assigned by `validateField` is one of the three status
strings. -/
theorem validateField_status_cases (e r : JVal) (t : Nat) :
    (validateField e r t).status = Status.matched ∨
      (validateField e r t).status = Status.hallucination ∨
      (validateField e r t).status = Status.nullv := by
  unfold validateField
  split
  · right; right; rfl
  · dsimp only
    split
    · left; rfl
    · right; left; rfl

/-- The score assigned by `validateField` is at most 100. -/
theorem validateField_score_le (e r : JVal) (t : Nat) :
    (validateField e r t).score ≤ 100 := by
  unfold validateField
  split
  · exact Nat.zero_le _
  · exact simScore_le_100 _ _

/-- `validateField` echoes the resolved extracted value. -/
theorem validateField_extracted_eq (e r : JVal) (t : Nat) :
    (validateField e r t).extracted_value = extractedValueOf e := by
  unfold validateField
  split <;> rfl

/-- `validateField` echoes the reference value. -/
theorem validateField_reference_eq (e r : JVal) (t : Nat) :
    (validateField e r t).reference_value = r := by
  unfold validateField
  split <;> rfl

/-- The shape of `validateField` when both sides are present. -/
theorem validateField_present (e r : JVal) (t : Nat)
    (h1 : isNone (extractedValueOf e) = false) (h2 : isNone r = false) :
    validateField e r t =
      ⟨if t ≤ simScore (pyNormalize (pyStr (extractedValueOf e))) (pyNormalize (pyStr r))
        then .matched else .hallucination,
       simScore (pyNormalize (pyStr (extractedValueOf e))) (pyNormalize (pyStr r)),
       extractedValueOf e, r⟩ := by
  unfold validateField
  rw [h1, h2]
  rfl

/-- The integer score of the code is the floor of the spec's ratio scaled
to 0-100, and that ratio is non-negative (so truncation toward zero and
floor agree). -/
theorem simScore_eq_floor (x y : String) :
    ((simScore x y : ℤ) = Int.floor (ratioSpec x y * 100)) ∧ 0 ≤ ratioSpec x y := by
  unfold simScore ratioSpec
  dsimp only
  split
  · norm_num
  · rename_i h
    constructor
    · have e : (2 * (seqMatches x.data y.data : ℚ) / ((x.length : ℚ) + (y.length : ℚ))) * 100
          = ((200 * seqMatches x.data y.data : ℕ) : ℚ) / (((x.length + y.length : ℕ) : ℕ) : ℚ) := by
        push_cast
        ring
      rw [e]
      have hnn : (0 : ℚ) ≤ ((200 * seqMatches x.data y.data : ℕ) : ℚ) / (((x.length + y.length : ℕ) : ℕ) : ℚ) := by
        positivity
      have hfl : ⌊((200 * seqMatches x.data y.data : ℕ) : ℚ) / (((x.length + y.length : ℕ) : ℕ) : ℚ)⌋₊
          = 200 * seqMatches x.data y.data / (x.length + y.length) := by
        rw [Nat.floor_div_nat, Nat.floor_natCast]
      have hiz : Int.floor (((200 * seqMatches x.data y.data : ℕ) : ℚ) / (((x.length + y.length : ℕ) : ℕ) : ℚ))
          = ((200 * seqMatches x.data y.data / (x.length + y.length) : ℕ) : ℤ) := by
        rw [← hfl, ← Int.floor_toNat, Int.toNat_of_nonneg (Int.floor_nonneg.mpr hnn)]
      rw [hiz]
    · positivity

/-! ## Claims -/

/-- C1 counterexample: the Field Scorer's similarity is not commutative.
With threshold 30, extracted `"tide"` against reference `"diet"` scores
25 (`hallucination`) while the swapped pair scores 50 (`match`), because
`difflib.SequenceMatcher.ratio` depends on the argument order. -/
theorem similarity_not_commutative :
    (validateField (.jstr "tide") (.jstr "diet") 30).score = 25 ∧
    (validateField (.jstr "diet") (.jstr "tide") 30).score = 50 ∧
    (validateField (.jstr "tide") (.jstr "diet") 30).status = Status.hallucination ∧
    (validateField (.jstr "diet") (.jstr "tide") 30).status = Status.matched := by
  refine ⟨?_, ?_, ?_, ?_⟩ <;> rfl

/-- C1 (amended): the similarity is deterministic but not commutative in
general; the score and status of a pair are guaranteed unchanged under
swapping only when the two normalized strings coincide. -/
theorem similarity_symmetric_on_equal_normalization (a b : String) (t : Nat)
    (h : pyNormalize a = pyNormalize b) :
    (validateField (.jstr a) (.jstr b) t).score = (validateField (.jstr b) (.jstr a) t).score ∧
    (validateField (.jstr a) (.jstr b) t).status = (validateField (.jstr b) (.jstr a) t).status := by
  have e1 : validateField (.jstr a) (.jstr b) t =
      ⟨if t ≤ simScore (pyNormalize a) (pyNormalize b) then .matched else .hallucination,
       simScore (pyNormalize a) (pyNormalize b), .jstr a, .jstr b⟩ := rfl
  have e2 : validateField (.jstr b) (.jstr a) t =
      ⟨if t ≤ simScore (pyNormalize b) (pyNormalize a) then .matched else .hallucination,
       simScore (pyNormalize b) (pyNormalize a), .jstr b, .jstr a⟩ := rfl
  rw [e1, e2, h]
  exact ⟨rfl, rfl⟩

/-- C1 witness: `"TIDE"` and `"tide"` normalize to the same string, so
their scores and statuses agree under swapping. -/
theorem similarity_symmetric_witness :
    (validateField (.jstr "TIDE") (.jstr "tide") 40).score =
      (validateField (.jstr "tide") (.jstr "TIDE") 40).score ∧
    (validateField (.jstr "TIDE") (.jstr "tide") 40).status =
      (validateField (.jstr "tide") (.jstr "TIDE") 40).status :=
  similarity_symmetric_on_equal_normalization "TIDE" "tide" 40 (by decide)

/-- C2 counterexample: a reference value of `float("nan")` is not treated
as absent: with extracted text `"x"` and threshold 50 the field is scored
(status `hallucination`), not `null`. -/
theorem nan_reference_not_null :
    (validateField (.jdict [("text", .jstr "x")]) .jnan 50).status = Status.hallucination ∧
    (validateField (.jdict [("text", .jstr "x")]) .jnan 50).status ≠ Status.nullv := by
  refine ⟨rfl, ?_⟩
  decide

/-- C2 (amended): a scored field is `null` with score 0 exactly when the
extracted value or the reference value resolves to Python `None` (NaN
values are scored like any other value, via their string form `"nan"`);
when both sides are non-`None` the status is derived purely from the
similarity score against the threshold; a field missing on the structured
side resolves to `None` (so it is treated as absent, not an error). -/
theorem null_iff_value_is_none (extracted ref : JVal) (t : Nat) :
    (((validateField extracted ref t).status = Status.nullv ∧
        (validateField extracted ref t).score = 0) ↔
      (isNone (extractedValueOf extracted) = true ∨ isNone ref = true)) ∧
    (isNone (extractedValueOf extracted) = false → isNone ref = false →
      (validateField extracted ref t).status =
        (if t ≤ (validateField extracted ref t).score then Status.matched
         else Status.hallucination)) := by
  cases h1 : isNone (extractedValueOf extracted)
  · cases h2 : isNone ref
    · have hv := validateField_present extracted ref t h1 h2
      rw [hv]
      dsimp only
      constructor
      · constructor
        · rintro ⟨hs, _⟩
          split at hs <;> cases hs
        · rintro (h | h) <;> cases h
      · intro _ _
        rfl
    · have hv : validateField extracted ref t = ⟨.nullv, 0, extractedValueOf extracted, ref⟩ := by
        unfold validateField
        rw [h1, h2]
        rfl
      rw [hv]
      exact ⟨by simp, by intro _ hc; cases hc⟩
  · have hv : validateField extracted ref t = ⟨.nullv, 0, extractedValueOf extracted, ref⟩ := by
      unfold validateField
      rw [h1]
      rfl
    rw [hv]
    exact ⟨by simp [h1], by intro hc; cases hc⟩

/-- C2 witness: an absent reference yields status `null`. -/
theorem null_iff_value_is_none_witness :
    (validateField (.jstr "abc") .jnull 50).status = Status.nullv := by
  have h := null_iff_value_is_none (.jstr "abc") .jnull 50
  exact (h.1.mpr (Or.inr (by decide))).1

/-- C5: for two present values, the integer score is the similarity
ratio scaled to 0-100 and truncated toward zero (the ratio is
non-negative, so truncation is floor), and the status is `match` exactly
when `score >= threshold`, else `hallucination`. -/
theorem score_is_floor_and_threshold (extracted ref : JVal) (t : Nat)
    (h1 : isNone (extractedValueOf extracted) = false) (h2 : isNone ref = false) :
    (((validateField extracted ref t).score : ℤ) =
        Int.floor (ratioSpec (pyNormalize (pyStr (extractedValueOf extracted)))
          (pyNormalize (pyStr ref)) * 100)) ∧
    0 ≤ ratioSpec (pyNormalize (pyStr (extractedValueOf extracted))) (pyNormalize (pyStr ref)) ∧
    ((validateField extracted ref t).status = Status.matched ↔
      t ≤ (validateField extracted ref t).score) ∧
    ((validateField extracted ref t).status = Status.hallucination ↔
      ¬ t ≤ (validateField extracted ref t).score) := by
  have hv := validateField_present extracted ref t h1 h2
  have hfl := simScore_eq_floor (pyNormalize (pyStr (extractedValueOf extracted)))
    (pyNormalize (pyStr ref))
  rw [hv]
  refine ⟨hfl.1, hfl.2, ?_, ?_⟩ <;> dsimp only <;> split <;> simp_all

/-- C5 witness: equal strings score 100 and match at threshold 100. -/
theorem score_is_floor_and_threshold_witness :
    (validateField (.jstr "abc") (.jstr "abc") 100).status = Status.matched := by
  have h := score_is_floor_and_threshold (.jstr "abc") (.jstr "abc") 100 (by decide) (by decide)
  exact h.2.2.1.mpr (by decide)

/-- C10: for every structured record, reference mapping and threshold,
`validate_structured_info` returns results keyed by exactly the nine
known field names in order; every entry's status is one of `match`,
`hallucination`, `null`; every score lies in `[0, 100]`; the extracted
and reference values are echoed back; and a field whose attribute is
`None` (in particular one absent from both sides) still appears, with
status `null` and score 0. -/
theorem validate_results_wellformed (si : StructuredImageProperty) (ri : Option RefInfo)
    (t : Nat) :
    ((validate_structured_info si ri t).map Prod.fst = validationFields) ∧
    (∀ p ∈ validate_structured_info si ri t,
      (p.2.status = Status.matched ∨ p.2.status = Status.hallucination ∨
        p.2.status = Status.nullv) ∧
      p.2.score ≤ 100 ∧
      p.2.extracted_value = extractedValueOf (getAttrOr si p.1) ∧
      p.2.reference_value = refGet ri p.1) ∧
    (∀ f ∈ validationFields, isNone (getAttrOr si f) = true →
      (validate_structured_info si ri t).lookup f =
        some ⟨Status.nullv, 0, getAttrOr si f, refGet ri f⟩) := by
  refine ⟨?_, ?_, ?_⟩
  · rfl
  · intro p hp
    obtain ⟨f, hf, hfp⟩ := List.mem_map.mp hp
    subst hfp
    exact ⟨validateField_status_cases _ _ _, validateField_score_le _ _ _,
      validateField_extracted_eq _ _ _, validateField_reference_eq _ _ _⟩
  · intro f hf hnone
    rw [validate_structured_info, lookup_map_self _ validationFields f hf]
    have hj := (isNone_true_iff _).mp hnone
    rw [hj]
    rfl

/-- C10 witness: a field absent from the structured side appears with
status `null`, score 0, and the reference value echoed. -/
theorem validate_results_wellformed_witness :
    (validate_structured_info {} (some [("courier_partner", .jstr "dhl")]) 50).lookup
        "courier_partner" =
      some ⟨Status.nullv, 0, getAttrOr {} "courier_partner",
        refGet (some [("courier_partner", .jstr "dhl")]) "courier_partner"⟩ := by
  have h := validate_results_wellformed {} (some [("courier_partner", .jstr "dhl")]) 50
  exact h.2.2 "courier_partner" (by decide) (by decide)

/-- Every bucketed row is bucketed exactly once: the three bucket counts
add up to the number of rows that reach the counting branch at all. -/
theorem bucketCount_partition (t : Nat) (c : String) (df : List CellVal) :
    bucketCount df t c .matched + bucketCount df t c .nullv +
        bucketCount df t c .hallucination =
      df.countP (fun r => (rowBucket t c r).isSome) := by
  induction df with
  | nil => rfl
  | cons x xs ih =>
    simp only [bucketCount, List.countP_cons] at *
    cases hx : rowBucket t c x with
    | none => simp [hx]; omega
    | some s => cases s <;> simp [hx] <;> omega

/-- C3 counterexample: a one-row dataset whose JSON cell is `NaN` has the
row in no bucket, and the three percentages sum to 0, not 100. -/
theorem skipped_row_breaks_percentages :
    rowBucket 50 "courier_partner" CellVal.nanCell = none ∧
    (overallStats [CellVal.nanCell] 50 "courier_partner").matchPercentage +
        (overallStats [CellVal.nanCell] 50 "courier_partner").nullPercentage +
        (overallStats [CellVal.nanCell] 50 "courier_partner").hallucinationPercentage = 0 ∧
    ¬ ((overallStats [CellVal.nanCell] 50 "courier_partner").matchPercentage +
        (overallStats [CellVal.nanCell] 50 "courier_partner").nullPercentage +
        (overallStats [CellVal.nanCell] 50 "courier_partner").hallucinationPercentage = 100) := by
  refine ⟨rfl, ?_, ?_⟩
  · show pct 0 1 + pct 0 1 + pct 0 1 = 0
    norm_num [pct]
  · show ¬ (pct 0 1 + pct 0 1 + pct 0 1 = 100)
    norm_num [pct]

/-- C3 (amended): for every dataset, column and threshold, each row whose
JSON is present, parses, and carries both `structured_info` and a truthy
`reference_info` is counted in exactly one of the three buckets (their
counts sum to the number of such rows); rows skipped by the loop are in
no bucket but stay in the `total_count` denominator, so the three
percentages sum to 100% exactly when every row is processed (and the
dataset is non-empty). -/
theorem overall_percentages (df : List CellVal) (t : Nat) (c : String) :
    (bucketCount df t c .matched + bucketCount df t c .nullv +
        bucketCount df t c .hallucination =
      df.countP fun r => (rowBucket t c r).isSome) ∧
    ((∀ r ∈ df, (rowBucket t c r).isSome = true) → df ≠ [] →
      (overallStats df t c).matchPercentage + (overallStats df t c).nullPercentage +
        (overallStats df t c).hallucinationPercentage = 100) := by
  refine ⟨bucketCount_partition t c df, ?_⟩
  intro hall hne
  have hlen : df.countP (fun r => (rowBucket t c r).isSome) = df.length :=
    List.countP_eq_length.mpr hall
  have hsum : bucketCount df t c .matched + bucketCount df t c .nullv +
      bucketCount df t c .hallucination = df.length := by
    rw [bucketCount_partition t c df, hlen]
  have h0 : df.length ≠ 0 := by
    cases df with
    | nil => exact absurd rfl hne
    | cons x xs => simp
  have hL : (df.length : ℚ) ≠ 0 := Nat.cast_ne_zero.mpr h0
  have hcast : (bucketCount df t c .matched : ℚ) + (bucketCount df t c .nullv : ℚ) +
      (bucketCount df t c .hallucination : ℚ) = (df.length : ℚ) := by
    exact_mod_cast hsum
  simp only [overallStats, pct, if_neg h0]
  field_simp
  linarith [hcast]

/-- C3 witness: on a one-row dataset whose row is processed, the three
percentages sum to 100. -/
theorem overall_percentages_witness :
    (overallStats df1 50 "courier_partner").matchPercentage +
        (overallStats df1 50 "courier_partner").nullPercentage +
        (overallStats df1 50 "courier_partner").hallucinationPercentage = 100 :=
  (overall_percentages df1 50 "courier_partner").2 (by decide) (by simp [df1])

/-- C4 counterexample: the overall-statistics table emits eight field
rows, and `handwritten_notes` — one of the nine known fields — is not
among them. -/
theorem handwritten_notes_not_in_overall :
    ((overallTable [CellVal.nanCell] 50).map ColStats.field).length = 8 ∧
    "handwritten_notes" ∉ (overallTable [CellVal.nanCell] 50).map ColStats.field ∧
    "handwritten_notes" ∈ validationFields := by
  refine ⟨rfl, by decide, by decide⟩

/-- C4 (amended): overall-statistics mode applies the Field Scorer to
every row for each of eight of the nine known fields — `handwritten_notes`
is omitted from the iterated column list — and emits for each of those
eight its total count, match count, null count, hallucination count, and
the three percentages. -/
theorem overall_table_fields (df : List CellVal) (t : Nat) :
    ((overallTable df t).map ColStats.field = overallColumns) ∧
    overallColumns.length = 8 ∧
    "handwritten_notes" ∉ overallColumns ∧
    (∀ cs ∈ overallTable df t,
      cs.totalCount = df.length ∧
      cs.totalMatch = bucketCount df t cs.field .matched ∧
      cs.totalNull = bucketCount df t cs.field .nullv ∧
      cs.hallucinationCount = bucketCount df t cs.field .hallucination ∧
      cs.matchPercentage = pct cs.totalMatch df.length ∧
      cs.nullPercentage = pct cs.totalNull df.length ∧
      cs.hallucinationPercentage = pct cs.hallucinationCount df.length) := by
  refine ⟨rfl, rfl, by decide, ?_⟩
  intro cs hcs
  obtain ⟨c, hc, hceq⟩ := List.mem_map.mp hcs
  subst hceq
  exact ⟨rfl, rfl, rfl, rfl, rfl, rfl, rfl⟩

/-- C4 witness: the first emitted row of the overall table for a concrete
dataset reports the dataset size as its total count. -/
theorem overall_table_fields_witness :
    (overallStats df1 50 "text_quality_score").totalCount = df1.length := by
  have h := overall_table_fields df1 50
  exact (h.2.2.2 (overallStats df1 50 "text_quality_score")
    (List.mem_map.mpr ⟨"text_quality_score", by decide, rfl⟩)).1

/-- Full evaluation of the render on the concrete one-field record
`fields1` over a 1000 by 1000 image: the box `[0, 0, 500, 500]` is drawn
as the rectangle `(0, 0, 500, 500)` in the first palette color with
stroke width 3, followed by the label background and text. -/
theorem renderFields1_eval :
    draw_predictions_on_image font0 1000 1000 fields1 =
      .ok ⟨[.rectOutline 0 0 500 500 "red" 3, .rectFill 0 0 14 12 "red",
            .textCmd 2 1 "awb_number: x" "black"], [], 1⟩ := by
  have h0 : pyInt 0 = 0 := by norm_num [pyInt]
  have h500 : pyInt 500 = 500 := by norm_num [pyInt]
  simp [draw_predictions_on_image, drawFold, fields1, drawField, processField,
    rendFieldCase, boxValid4, scaleBoxCoords, toAbsCoord, List.lookup, orderClampBox,
    boxDegenerate, pyLabel, emitCmds, font0, colors, h0, h500]
  decide

/-- C6: the renderer maps box components positionally before drawing —
`x1` from `box[0]` scaled by the width, `y1` from `box[1]` scaled by the
height, `x2` from `box[2]` scaled by the width, `y2` from `box[3]` scaled
by the height — and the concrete box `[0, 0, 500, 500]` on a 1000 by 1000
image is drawn as the rectangle `(0, 0, 500, 500)`. -/
theorem box_positional_mapping (b0 b1 b2 b3 : ℚ) (W H : Nat) :
    (scaleBoxCoords (.jnum b0) (.jnum b1) (.jnum b2) (.jnum b3) W H =
      .ok (pyInt (b0 / 1000 * W), pyInt (b1 / 1000 * H),
           pyInt (b2 / 1000 * W), pyInt (b3 / 1000 * H))) ∧
    (draw_predictions_on_image font0 1000 1000 fields1 =
      .ok ⟨[.rectOutline 0 0 500 500 "red" 3, .rectFill 0 0 14 12 "red",
            .textCmd 2 1 "awb_number: x" "black"], [], 1⟩) :=
  ⟨rfl, renderFields1_eval⟩

/-- After ordering and clamping, the box is non-negative, weakly ordered,
and within the image bounds. -/
theorem orderClampBox_bounds (x1 y1 x2 y2 : Int) (W H : Nat) :
    0 ≤ (orderClampBox x1 y1 x2 y2 W H).x1 ∧
    (orderClampBox x1 y1 x2 y2 W H).x1 ≤ (orderClampBox x1 y1 x2 y2 W H).x2 ∧
    (orderClampBox x1 y1 x2 y2 W H).x2 ≤ (W : Int) ∧
    0 ≤ (orderClampBox x1 y1 x2 y2 W H).y1 ∧
    (orderClampBox x1 y1 x2 y2 W H).y1 ≤ (orderClampBox x1 y1 x2 y2 W H).y2 ∧
    (orderClampBox x1 y1 x2 y2 W H).y2 ≤ (H : Int) := by
  unfold orderClampBox
  dsimp only
  split <;> split <;>
    refine ⟨?_, ?_, ?_, ?_, ?_, ?_⟩ <;> omega

/-- Every command emitted for a clamped, non-degenerate box is safe. -/
theorem emitCmds_safe (font : FontMetrics) (ci : Nat) (x1 y1 x2 y2 : Int) (W H : Nat)
    (label : String)
    (hdeg : boxDegenerate (orderClampBox x1 y1 x2 y2 W H) = false) :
    ∀ cmd ∈ emitCmds font ci (orderClampBox x1 y1 x2 y2 W H) label, RectSafe W H cmd := by
  intro cmd hmem
  have hb := orderClampBox_bounds x1 y1 x2 y2 W H
  have hstrict : (orderClampBox x1 y1 x2 y2 W H).x1 < (orderClampBox x1 y1 x2 y2 W H).x2 ∧
      (orderClampBox x1 y1 x2 y2 W H).y1 < (orderClampBox x1 y1 x2 y2 W H).y2 := by
    unfold boxDegenerate at hdeg
    simp only [Bool.or_eq_false_iff, decide_eq_false_iff_not, not_le] at hdeg
    exact hdeg
  unfold emitCmds at hmem
  simp only [List.mem_cons, List.mem_singleton] at hmem
  rcases hmem with h | h | h | h
  · intro a b c d col wd heq
    rw [h] at heq
    cases heq
    exact ⟨hb.1, hstrict.1, hb.2.2.1, hb.2.2.2.1, hstrict.2, hb.2.2.2.2.2⟩
  · intro a b c d col wd heq
    rw [h] at heq
    cases heq
  · intro a b c d col wd heq
    rw [h] at heq
    cases heq
  · cases h

/-- Whatever `processField` decides to draw consists of safe commands. -/
theorem processField_drawn_safe (font : FontMetrics) (W H : Nat) (ci : Nat)
    (name : String) (v : JVal) (cs : List DrawCmd)
    (hpf : processField font W H ci name v = .drawn cs) :
    ∀ cmd ∈ cs, RectSafe W H cmd := by
  unfold processField at hpf
  cases hrf : rendFieldCase v with
  | none => simp [hrf] at hpf
  | some tb =>
    obtain ⟨text, box⟩ := tb
    simp only [hrf] at hpf
    cases hbv : boxValid4 box with
    | none => simp [hbv] at hpf
    | some q =>
      obtain ⟨b0, b1, b2, b3⟩ := q
      simp only [hbv] at hpf
      cases hsc : scaleBoxCoords b0 b1 b2 b3 W H with
      | error e => simp [hsc] at hpf
      | ok quad =>
        obtain ⟨x1, y1, x2, y2⟩ := quad
        simp only [hsc] at hpf
        cases hdeg : boxDegenerate (orderClampBox x1 y1 x2 y2 W H) with
        | true => simp [hdeg] at hpf
        | false =>
          simp only [hdeg, Bool.false_eq_true, if_false] at hpf
          cases hlab : pyLabel name text with
          | error e => simp [hlab] at hpf
          | ok label =>
            simp only [hlab] at hpf
            cases hpf
            exact emitCmds_safe font ci x1 y1 x2 y2 W H label hdeg

/-- One render step preserves safety of the accumulated commands. -/
theorem drawField_safe (font : FontMetrics) (W H : Nat) (acc acc2 : RenderAcc)
    (p : String × JVal) (hacc : ∀ cmd ∈ acc.cmds, RectSafe W H cmd)
    (hstep : drawField font W H acc p = .ok acc2) :
    ∀ cmd ∈ acc2.cmds, RectSafe W H cmd := by
  unfold drawField at hstep
  split at hstep
  · cases hstep; exact hacc
  · cases hstep; exact hacc
  · cases hstep
  · rename_i cs hpf
    cases hstep
    intro cmd hmem
    rcases List.mem_append.mp hmem with h | h
    · exact hacc cmd h
    · exact processField_drawn_safe font W H acc.colorIndex p.1 p.2 cs hpf cmd h

/-- The render fold preserves safety of the accumulated commands. -/
theorem drawFold_safe (font : FontMetrics) (W H : Nat) :
    ∀ (fields : List (String × JVal)) (acc acc2 : RenderAcc),
      (∀ cmd ∈ acc.cmds, RectSafe W H cmd) →
      drawFold font W H acc fields = .ok acc2 →
      ∀ cmd ∈ acc2.cmds, RectSafe W H cmd := by
  intro fields
  induction fields with
  | nil =>
    intro acc acc2 hacc hok
    cases hok
    exact hacc
  | cons p ps ih =>
    intro acc acc2 hacc hok
    unfold drawFold at hok
    split at hok
    · cases hok
    · rename_i acc1 hstep
      exact ih acc1 acc2 (drawField_safe font W H acc acc1 p hacc hstep) hok

/-- C7: every rectangle outline handed to the drawing call by a completed
render has coordinates that are non-negative, strictly ordered, and
within the image — boxes that would be inverted or zero-area after
scaling, ordering and clamping are discarded before drawing. -/
theorem clamped_boxes_safe (font : FontMetrics) (W H : Nat)
    (fields : List (String × JVal)) (acc : RenderAcc)
    (hok : draw_predictions_on_image font W H fields = .ok acc)
    (a b c d : Int) (col : String) (wd : Nat)
    (hmem : DrawCmd.rectOutline a b c d col wd ∈ acc.cmds) :
    0 ≤ a ∧ a < c ∧ c ≤ (W : Int) ∧ 0 ≤ b ∧ b < d ∧ d ≤ (H : Int) := by
  have hsafe := drawFold_safe font W H fields ⟨[], [], 0⟩ acc
    (by intro cmd hmem2; cases hmem2) hok
  exact hsafe _ hmem a b c d col wd rfl

/-- C7 witness: the rectangle drawn for the concrete box `[0, 0, 500,
500]` on a 1000 by 1000 image satisfies the bounds. -/
theorem clamped_boxes_safe_witness :
    (0 : Int) ≤ 0 ∧ (0 : Int) < 500 ∧ (500 : Int) ≤ ((1000 : Nat) : Int) ∧
    (0 : Int) ≤ 0 ∧ (0 : Int) < 500 ∧ (500 : Int) ≤ ((1000 : Nat) : Int) :=
  clamped_boxes_safe font0 1000 1000 fields1 _ renderFields1_eval
    0 0 500 500 "red" 3 (by simp)

/-- C8 counterexample: a `box_2d` that is a list of exactly four
components one of which is a string is not skipped — the division raises
a `TypeError` that aborts the whole render, and the following well-formed
field is never processed. -/
theorem string_box_component_aborts_render :
    draw_predictions_on_image font0 1000 1000
      [("awb_number", .jdict [("text", .jstr "x"),
         ("box_2d", .jlist [.jstr "a", .jnum 1, .jnum 2, .jnum 3])]),
       ("courier_partner", .jdict [("text", .jstr "y"),
         ("box_2d", .jlist [.jnum 0, .jnum 0, .jnum 500, .jnum 500])])] =
      .error "TypeError: unsupported operand type for /" := rfl

/-- A numeric (or bool) component always scales without raising. -/
theorem numericJ_toAbsCoord_ok (v : JVal) (dim : Nat) (h : numericJ v = true) :
    ∃ z, toAbsCoord v dim = .ok z := by
  cases v <;> simp [numericJ] at h <;> exact ⟨_, rfl⟩

/-- A benign field never makes `processField` raise. -/
theorem processField_benign (font : FontMetrics) (W H : Nat) (ci : Nat)
    (name : String) (v : JVal) (hb : fieldBenign v = true) :
    ∀ e, processField font W H ci name v ≠ .raise e := by
  intro e
  unfold fieldBenign at hb
  unfold processField
  cases hrf : rendFieldCase v with
  | none => simp
  | some tb =>
    obtain ⟨text, box⟩ := tb
    simp only [hrf] at hb
    cases hbv : boxValid4 box with
    | none => simp [hbv]
    | some q =>
      obtain ⟨b0, b1, b2, b3⟩ := q
      simp only [hbv, Bool.and_eq_true] at hb
      obtain ⟨⟨⟨⟨hn0, hn1⟩, hn2⟩, hn3⟩, hstr⟩ := hb
      obtain ⟨z1, hz1⟩ := numericJ_toAbsCoord_ok b1 H hn1
      obtain ⟨z0, hz0⟩ := numericJ_toAbsCoord_ok b0 W hn0
      obtain ⟨z3, hz3⟩ := numericJ_toAbsCoord_ok b3 H hn3
      obtain ⟨z2, hz2⟩ := numericJ_toAbsCoord_ok b2 W hn2
      have hsc : scaleBoxCoords b0 b1 b2 b3 W H = .ok (z0, z1, z2, z3) := by
        unfold scaleBoxCoords
        rw [hz1, hz0, hz3, hz2]
      simp only [hbv, hsc]
      cases text with
      | jstr s =>
        simp only [pyLabel]
        split <;> simp
      | jnull => simp [isJStr] at hstr
      | jbool b => simp [isJStr] at hstr
      | jnum q => simp [isJStr] at hstr
      | jnan => simp [isJStr] at hstr
      | jlist xs => simp [isJStr] at hstr
      | jdict es => simp [isJStr] at hstr

/-- A benign field list folds to a successful render from any state. -/
theorem drawFold_benign_ok (font : FontMetrics) (W H : Nat) :
    ∀ (fields : List (String × JVal)) (acc : RenderAcc),
      (∀ p ∈ fields, fieldBenign p.2 = true) →
      renderOk (drawFold font W H acc fields) = true := by
  intro fields
  induction fields with
  | nil => intro acc _; rfl
  | cons p ps ih =>
    intro acc hb
    unfold drawFold
    cases hstep : drawField font W H acc p with
    | error e =>
      exfalso
      unfold drawField at hstep
      cases hpf : processField font W H acc.colorIndex p.1 p.2 with
      | ignore => rw [hpf] at hstep; cases hstep
      | skipLog m => rw [hpf] at hstep; cases hstep
      | raise e2 =>
        exact processField_benign font W H acc.colorIndex p.1 p.2
          (hb p (List.mem_cons_self p ps)) e2 hpf
      | drawn cs => rw [hpf] at hstep; cases hstep
    | ok acc2 =>
      exact ih acc2 (fun q hq => hb q (List.mem_cons_of_mem p hq))

/-- C8 (amended): a field whose `box_2d` is null, not a list, or of the
wrong arity is skipped with a diagnostic log entry and the render
continues; a box that becomes degenerate after clamping is likewise
skipped with a log entry; and a render over fields whose 4-component
boxes are all numeric (with string texts) never raises. A 4-component box
holding a non-numeric value, however, raises and aborts the whole render
(see the counterexample), and a dict lacking the `text` or `box_2d` key
is passed over silently without a log entry. -/
theorem invalid_boxes_skipped_with_log (font : FontMetrics) (W H : Nat) :
    (∀ (acc : RenderAcc) (name : String) (v : JVal) (text box : JVal),
      rendFieldCase v = some (text, box) → boxValid4 box = none →
      drawField font W H acc (name, v) =
        .ok ⟨acc.cmds,
          acc.logs ++ ["Skipping field " ++ name ++ " due to missing or invalid box_2d"],
          acc.colorIndex⟩) ∧
    (∀ (acc : RenderAcc) (name : String) (v : JVal) (text box : JVal)
      (b0 b1 b2 b3 : JVal) (x1 y1 x2 y2 : Int),
      rendFieldCase v = some (text, box) →
      boxValid4 box = some (b0, b1, b2, b3) →
      scaleBoxCoords b0 b1 b2 b3 W H = .ok (x1, y1, x2, y2) →
      boxDegenerate (orderClampBox x1 y1 x2 y2 W H) = true →
      drawField font W H acc (name, v) =
        .ok ⟨acc.cmds, acc.logs ++ ["Skipping invalid bbox for " ++ name],
          acc.colorIndex⟩) ∧
    (∀ (fields : List (String × JVal)),
      (∀ p ∈ fields, fieldBenign p.2 = true) →
      renderOk (draw_predictions_on_image font W H fields) = true) := by
  refine ⟨?_, ?_, ?_⟩
  · intro acc name v text box hrf hbv
    unfold drawField processField
    simp only [hrf, hbv]
  · intro acc name v text box b0 b1 b2 b3 x1 y1 x2 y2 hrf hbv hsc hdeg
    unfold drawField processField
    simp only [hrf, hbv, hsc, hdeg, if_true]
  · intro fields hb
    exact drawFold_benign_ok font W H fields ⟨[], [], 0⟩ hb

/-- C8 witness: a field whose `box_2d` is `None` is skipped with the log
entry; and the benign one-field record renders successfully. -/
theorem invalid_boxes_skipped_with_log_witness :
    (drawField font0 1000 1000 ⟨[], [], 0⟩
        ("recipient_name", .jdict [("text", .jstr "t"), ("box_2d", .jnull)]) =
      .ok ⟨[], ["Skipping field recipient_name due to missing or invalid box_2d"], 0⟩) ∧
    renderOk (draw_predictions_on_image font0 1000 1000 fields1) = true := by
  constructor
  · exact (invalid_boxes_skipped_with_log font0 1000 1000).1 ⟨[], [], 0⟩
      "recipient_name" _ (.jstr "t") .jnull rfl rfl
  · exact (invalid_boxes_skipped_with_log font0 1000 1000).2.2 fields1 (by decide)

/-- Full evaluation of the render on the dumped field list of `si1`: the
eight `None` fields are passed over and the `awb_number` box is drawn. -/
theorem renderSi1_eval :
    draw_predictions_on_image font0 1000 1000 (structuredFieldList si1) =
      .ok ⟨[.rectOutline 0 0 500 500 "red" 3, .rectFill 0 0 14 12 "red",
            .textCmd 2 1 "awb_number: x" "black"], [], 1⟩ := by
  have h0 : pyInt 0 = 0 := by norm_num [pyInt]
  have h500 : pyInt 500 = 500 := by norm_num [pyInt]
  simp [draw_predictions_on_image, drawFold, structuredFieldList, si1, drawField,
    processField, rendFieldCase, boxValid4, scaleBoxCoords, toAbsCoord, List.lookup,
    orderClampBox, boxDegenerate, pyLabel, emitCmds, font0, colors, h0, h500]
  decide

/-- C9 counterexample: `draw_predictions_on_image` draws onto the very
image object it is given and returns that same object — on a heap with
one pristine buffer, the render returns buffer index 0 (its input, not a
distinct object) and that buffer is no longer pristine. -/
theorem renderer_returns_same_mutated_image :
    drawPredHeap font0 1000 1000 [[]] 0 (some si1) =
      .ok ([[DrawCmd.rectOutline 0 0 500 500 "red" 3, DrawCmd.rectFill 0 0 14 12 "red",
             DrawCmd.textCmd 2 1 "awb_number: x" "black"]], 0) ∧
    ([[DrawCmd.rectOutline 0 0 500 500 "red" 3, DrawCmd.rectFill 0 0 14 12 "red",
       DrawCmd.textCmd 2 1 "awb_number: x" "black"]] : Heap) ≠ [[]] := by
  constructor
  · simp [drawPredHeap, renderSi1_eval]
  · decide

/-- C9 (amended): the renderer draws in place on the image it is handed
and returns that same object, but the call site passes `image.copy()`, so
after rendering the caller's original image buffer is unchanged and the
annotated image it displays is a distinct object. -/
theorem call_site_preserves_original (font : FontMetrics) (W H : Nat) (h : Heap)
    (orig : Nat) (si : Option StructuredImageProperty) (out : Heap × Nat)
    (hlt : orig < h.length)
    (hok : callSiteRender font W H h orig si = .ok out) :
    out.1[orig]? = h[orig]? ∧ out.2 ≠ orig := by
  unfold callSiteRender imageCopy drawPredHeap at hok
  cases si with
  | none =>
    dsimp only at hok
    cases hok
    constructor
    · dsimp only
      rw [List.getElem?_append, if_pos hlt]
    · dsimp only
      omega
  | some s =>
    dsimp only at hok
    cases hdr : draw_predictions_on_image font W H (structuredFieldList s) with
    | error e =>
      rw [hdr] at hok
      cases hok
    | ok acc =>
      rw [hdr] at hok
      cases hok
      have hne : h.length ≠ orig := by omega
      constructor
      · dsimp only
        rw [List.getElem?_set_ne hne, List.getElem?_append, if_pos hlt]
      · dsimp only
        omega

/-- C9 witness: rendering a copy of the single pristine buffer leaves the
original buffer unchanged, and the annotated buffer is a different
object. -/
theorem call_site_preserves_original_witness :
    ([[], [DrawCmd.rectOutline 0 0 500 500 "red" 3, DrawCmd.rectFill 0 0 14 12 "red",
       DrawCmd.textCmd 2 1 "awb_number: x" "black"]] : Heap)[0]? = ([[]] : Heap)[0]? ∧
    (1 : Nat) ≠ 0 := by
  have hcall : callSiteRender font0 1000 1000 [[]] 0 (some si1) =
      .ok ([[], [DrawCmd.rectOutline 0 0 500 500 "red" 3, DrawCmd.rectFill 0 0 14 12 "red",
             DrawCmd.textCmd 2 1 "awb_number: x" "black"]], 1) := by
    simp [callSiteRender, imageCopy, drawPredHeap, renderSi1_eval]
  exact call_site_preserves_original font0 1000 1000 [[]] 0 (some si1)
    ([[], [DrawCmd.rectOutline 0 0 500 500 "red" 3, DrawCmd.rectFill 0 0 14 12 "red",
       DrawCmd.textCmd 2 1 "awb_number: x" "black"]], 1) (by decide) hcall

end PodVerif
